import Mathlib

/-!
Verification of the ProtonVPN NetworkManager library core (server selection,
catalog caching, servername validation, connection lifecycle) against its
natural-language specification.

The Python sources are shallowly embedded:
* `lib/services/server_manager.py` (`ServerManager`): catalog filtering,
  scoring, caching decision, servername grammar.
* `lib/services/connection_manager.py` (`ConnectionManager`): virtual-device
  extraction and the managed-connection record lifecycle.

Python strings are modelled as `List Char` (ASCII fragment: the claims only
exercise ASCII data, so `\w`, `\d`, `str.lower`, `str.upper`, `str.strip`
are modelled by their ASCII behaviour).  Python exceptions are modelled with
`Option`/`Except`/dedicated result inductives.  `random.choice(xs)` is
modelled by an extra `r : Nat` seed picking index `r % xs.length`
(`none`/`IndexError` on an empty list, as in CPython).
-/

set_option maxRecDepth 8000

namespace ProtonVPN

/-! ### Python string primitives (ASCII fragment), on `List Char` -/

/-- Python `str.split()` helper: accumulate the current token (reversed). -/
def pySplitAux : List Char → List Char → List (List Char)
  | [], acc => if acc.isEmpty then [] else [acc.reverse]
  | c :: t, acc =>
    if c.isWhitespace then
      if acc.isEmpty then pySplitAux t [] else acc.reverse :: pySplitAux t []
    else pySplitAux t (c :: acc)

/-- Python `str.split()` with no argument: split on whitespace runs,
dropping empty tokens. -/
def pySplit (l : List Char) : List (List Char) := pySplitAux l []

/-- Python `str.rstrip()` with no argument: drop trailing whitespace. -/
def pyRstrip (l : List Char) : List Char :=
  (l.reverse.dropWhile Char.isWhitespace).reverse

/-- Python `str.strip()` with no argument. -/
def pyStripChars (l : List Char) : List Char :=
  pyRstrip (l.dropWhile Char.isWhitespace)

/-- Python substring test `pat in l` on character lists. -/
def containsPat (pat : List Char) : List Char → Bool
  | [] => pat.isEmpty
  | c :: t => pat.isPrefixOf (c :: t) || containsPat pat t

/-- Python `str.strip()` on `String`. -/
def pyStrip (s : String) : String := String.mk (pyStripChars s.data)

/-- Python `str.lower()` (ASCII). -/
def pyLower (s : String) : String := String.mk (s.data.map Char.toLower)

/-- Python `str.upper()` (ASCII). -/
def pyUpper (s : String) : String := String.mk (s.data.map Char.toUpper)

/-! ### ConnectionManager.extract_virtual_device_type

Embedding of `connection_manager.py`, lines 234-257.  The profile file is
given as its list of lines (`f.readlines()`; a trailing newline on a line is
immaterial because every matching line is passed through `rstrip`). -/

/-- Outcome of `ConnectionManager.extract_virtual_device_type`: the returned
device type, or the raised exception. -/
inductive DevTypeResult where
  | ok (devType : String)
  | virtualDeviceNotFound
  | illegalVirtualDevice
deriving DecidableEq

/-- Embedding of `ConnectionManager.extract_virtual_device_type`:
`dev_type = [dev.rstrip() for dev in content_list if "dev" in dev]`, then
`dev_type[0].split()[1]` (an `IndexError` in either subscript raises
`VirtualDeviceNotFound`), then membership test in `["tun", "tap"]`
(failure raises `IllegalVirtualDevice`, success returns the entry). -/
def extract_virtual_device_type (content_list : List String) : DevTypeResult :=
  let dev_lines := (content_list.map String.data).filter
    (fun l => containsPat ['d', 'e', 'v'] l)
  match (dev_lines.map pyRstrip) with
  | [] => .virtualDeviceNotFound
  | first :: _ =>
    match pySplit first with
    | _ :: dev_type :: _ =>
      if dev_type = ['t', 'u', 'n'] ∨ dev_type = ['t', 'a', 'p'] then
        .ok (String.mk dev_type)
      else
        .illegalVirtualDevice
    | _ => .virtualDeviceNotFound

/-! ### ServerManager: data model

Embedding of the catalog entries consumed by `server_manager.py`.  `Score`
is a provider-supplied float used only through its ordering; it is modelled
by `Rat`. -/

/-- A physical subserver (`Servers` array entry) with its entry IP. -/
structure PhysicalServer where
  EntryIP : String
deriving DecidableEq

/-- A logical server of the `/vpn/logicals` catalog, restricted to the
fields `server_manager.py` reads. -/
structure LogicalServer where
  Name : String
  Tier : Nat
  Status : Nat
  Features : Nat
  Score : Rat
  Servers : List PhysicalServer
deriving DecidableEq

/-- Errors raised on the selection paths of `server_manager.py`.
`indexError` is the bare `IndexError` escaping `random.choice` on an empty
list; `emptyPool` is `ServerListEmptyError`; `validationError` is the
`ValueError` for an unknown feature literal. -/
inductive SelectionError where
  | indexError
  | illegalServername
  | emptyPool
  | validationError
deriving DecidableEq

instance {ε α : Type} [DecidableEq ε] [DecidableEq α] : DecidableEq (Except ε α) := fun a b =>
  match a, b with
  | .ok x, .ok y => if h : x = y then .isTrue (by rw [h]) else .isFalse (by simp [h])
  | .error x, .error y => if h : x = y then .isTrue (by rw [h]) else .isFalse (by simp [h])
  | .ok _, .error _ => .isFalse (by simp)
  | .error _, .ok _ => .isFalse (by simp)

/-- Embedding of `ServerManager.filter_servers` (lines 404-421): keep the
catalog entries with `Tier <= user_tier` and `Status == 1`. -/
def filter_servers (catalog : List LogicalServer) (user_tier : Nat) :
    List LogicalServer :=
  catalog.filter (fun s => decide (s.Tier ≤ user_tier) && s.Status == 1)

/-- Comparison used by `sorted(server_pool, key=lambda server: server["Score"])`. -/
def scoreLE (a b : LogicalServer) : Prop := a.Score ≤ b.Score

instance : DecidableRel scoreLE := fun a b => inferInstanceAs (Decidable (a.Score ≤ b.Score))

instance : IsTotal LogicalServer scoreLE := ⟨fun a b => le_total a.Score b.Score⟩

instance : IsTrans LogicalServer scoreLE := ⟨fun _ _ _ h1 h2 => le_trans h1 h2⟩

/-- Python `sorted` with the `Score` key: a stable sort by ascending score,
modelled by the stable `List.insertionSort`. -/
def sortByScore (server_pool : List LogicalServer) : List LogicalServer :=
  server_pool.insertionSort scoreLE

/-- Embedding of `ServerManager.get_fastest_server` (lines 434-461), kept at
the level of whole entries: sort ascending by score, keep the best 4 when
the pool has at least 50 members (else the best 1), and let `random.choice`
pick index `r % length` (`none` models the `IndexError` on an empty pool). -/
def get_fastest_entry (server_pool : List LogicalServer) (r : Nat) :
    Option LogicalServer :=
  let fastest_pool := sortByScore server_pool
  let pool_size := if fastest_pool.length ≥ 50 then 4 else 1
  let top := fastest_pool.take pool_size
  top[r % top.length]?

/-- `ServerManager.get_fastest_server` proper returns only the `Name` of the
chosen entry. -/
def get_fastest_server (server_pool : List LogicalServer) (r : Nat) :
    Option String :=
  (get_fastest_entry server_pool r).map LogicalServer.Name

/-- Embedding of `ServerManager.extract_server_value` (lines 463-478) at key
`"Servers"`: `value[0]` of the matching entries, `none` for the
`IndexError` on an empty match list. -/
def extract_server_value (servername : String) (servers : List LogicalServer) :
    Option (List PhysicalServer) :=
  ((servers.filter (fun s => s.Name == servername)).map LogicalServer.Servers).head?

/-- Embedding of `ServerManager.generate_ip_list` (lines 385-402). -/
def generate_ip_list (servername : String) (servers : List LogicalServer) :
    Option (List String) :=
  (extract_server_value servername servers).map (fun subs => subs.map PhysicalServer.EntryIP)

/-- Embedding of `ServerManager.fastest` (lines 20-55) after the catalog has
been cached and loaded (`cache_servers`/`filter_servers` I/O is abstracted
into the `catalog`/`user_tier` arguments): drop entries whose `Features`
value is exactly `1` (SecureCore) or exactly `2` (Tor), pick the fastest,
and extract the IP list. -/
def fastest (catalog : List LogicalServer) (user_tier : Nat) (r : Nat) :
    Except SelectionError (String × List String) :=
  let servers := filter_servers catalog user_tier
  let server_pool := servers.filter (fun s => !(s.Features == 1 || s.Features == 2))
  match get_fastest_entry server_pool r with
  | none => .error .indexError
  | some srv =>
    match generate_ip_list srv.Name servers with
    | none => .error .illegalServername
    | some ip_list => .ok (srv.Name, ip_list)

/-- The feature-literal table of `ServerManager.feature_f` (lines 233-237). -/
def allowed_features : List (String × Nat) :=
  [("sc", 1), ("tor", 2), ("p2p", 4), ("stream", 8), ("ipv6", 16)]

/-- Embedding of `ServerManager.feature_f` (lines 198-275): map the literal
through `allowed_features` (a missing key raises `ValueError`, before any
catalog access), filter the tier-filtered catalog to an exact `Features`
match, raise `ServerListEmptyError` on an empty pool, then select as in
`fastest`. -/
def feature_f (catalog : List LogicalServer) (user_tier : Nat)
    (literal : String) (r : Nat) : Except SelectionError (String × List String) :=
  let literal_feature := pyLower (pyStrip literal)
  match allowed_features.lookup literal_feature with
  | none => .error .validationError
  | some feature =>
    let servers := filter_servers catalog user_tier
    let server_pool := servers.filter (fun s => s.Features == feature)
    if server_pool.length = 0 then .error .emptyPool
    else
      match get_fastest_entry server_pool r with
      | none => .error .indexError
      | some srv =>
        match generate_ip_list srv.Name servers with
        | none => .error .illegalServername
        | some ip_list => .ok (srv.Name, ip_list)

/-- Embedding of `ServerManager.random_c` (lines 277-302):
`random.choice(servers)` over the tier-filtered catalog, with no feature
exclusion (the seed picks index `r % length`; `none` models the bare
`IndexError` on an empty list). -/
def random_c (catalog : List LogicalServer) (user_tier : Nat) (r : Nat) :
    Except SelectionError (String × List String) :=
  let servers := filter_servers catalog user_tier
  match servers[r % servers.length]? with
  | none => .error .indexError
  | some srv =>
    match generate_ip_list srv.Name servers with
    | none => .error .illegalServername
    | some ip_list => .ok (srv.Name, ip_list)

/-! ### ServerManager.cache_servers: the refresh decision

Embedding of lines 334-383.  File-system state is abstracted to the cache
file's last-modified time (in minutes, `none` when the file is absent) and
its content; `datetime.datetime.now()` is the `now` argument. -/

/-- `REFRESH_INTERVAL` of `ServerManager`, in minutes. -/
def REFRESH_INTERVAL : Int := 15

/-- The fetch decision of `ServerManager.cache_servers`:
`(not os.path.isfile(p)) or (time_ago > last_modified_time or force)` with
`time_ago = now - REFRESH_INTERVAL`, and `last_modified_time` defaulting to
`now` when the file is absent. -/
def cache_refresh_due (mtime : Option Int) (now : Int) (force : Bool) : Bool :=
  let last_modified_time : Int := match mtime with | some m => m | none => now
  let time_ago := now - REFRESH_INTERVAL
  mtime.isNone || (decide (time_ago > last_modified_time) || force)

/-- The cache file: last-modified time (minutes) and raw JSON content. -/
structure CacheState where
  mtime : Option Int
  content : Option String
deriving DecidableEq

/-- State transition of `ServerManager.cache_servers`: when the refresh is
due, the raw API response overwrites the cache file (`json.dump(data, f)`),
else the file is untouched. -/
def cache_servers (st : CacheState) (now : Int) (force : Bool)
    (response : String) : CacheState :=
  if cache_refresh_due st.mtime now force then
    { mtime := some now, content := some response }
  else st

/-! ### ConnectionManager: the managed connection record

Embedding of `connection_manager.py`, lines 21-100 and 267-297.  The
network-configuration service's record set is a list of records; a record
carries its connection-type tag and the `dev` data item of its VPN settings
(`none` when the item is absent). -/

/-- A network-configuration-service record, restricted to the fields the
identification rule reads. -/
structure NMConnection where
  id : String
  conn_type : String
  dev : Option String
deriving DecidableEq

/-- Identification rule of `ConnectionManager.get_proton_connection`:
a record is the managed one iff its type tag is `"vpn"` and its VPN
settings' `dev` item equals the fixed virtual-device name. -/
def is_proton_connection (virtual_device_name : String) (c : NMConnection) : Bool :=
  c.conn_type == "vpn" && c.dev == some virtual_device_name

/-- Embedding of `ConnectionManager.get_proton_connection` over all known
records: the first managed record, if any (the loop `break`s at the first
match). -/
def get_proton_connection (virtual_device_name : String)
    (conns : List NMConnection) : Option NMConnection :=
  conns.find? (is_proton_connection virtual_device_name)

/-- Record-set effect of `ConnectionManager.remove_connection`: delete the
first managed record; when none exists the raised `ConnectionNotFound`
leaves the record set unchanged (the caller in `add_connection` absorbs
the exception). -/
def remove_connection (virtual_device_name : String) :
    List NMConnection → List NMConnection
  | [] => []
  | c :: t =>
    if is_proton_connection virtual_device_name c then t
    else c :: remove_connection virtual_device_name t

/-- Effect of `ConnectionManager.set_virtual_device_type` on a record:
`vpn_settings.add_data_item("dev", self.virtual_device_name)` overwrites the
`dev` item with the fixed virtual-device name. -/
def set_virtual_device (virtual_device_name : String) (c : NMConnection) :
    NMConnection :=
  { c with dev := some virtual_device_name }

/-- Record-set effect of a successful `ConnectionManager.add_connection`:
the imported profile gets the fixed virtual-device name, any pre-existing
managed record is removed first (absence tolerated), and the new record is
registered. -/
def add_connection (virtual_device_name : String) (conns : List NMConnection)
    (imported : NMConnection) : List NMConnection :=
  let configured := set_virtual_device virtual_device_name imported
  remove_connection virtual_device_name conns ++ [configured]

/-- Number of managed records in a record set. -/
def countManaged (virtual_device_name : String) (conns : List NMConnection) : Nat :=
  (conns.filter (is_proton_connection virtual_device_name)).length

/-! ### ServerManager.is_servername_valid: grammar and normalization

Embedding of lines 492-536.  The two anchored regexes are compiled into
deterministic matchers; determinism is justified against Python backtracking
as follows.
* `(-|#)?` before a digit or letter class: when the next character is `-`
  or `#` the option must consume it (neither `\d` nor `[A-Z]`/`FREE` can),
  otherwise it cannot, so the option is forced either way.
* `(\d{1,3})` followed by `-?(TOR)?$`: the digit run must be consumed
  whole (whatever follows the group cannot consume a digit), so a match
  exists iff the run length is between 1 and 3 and the remainder is one of
  `""`, `"-"`, `"TOR"`, `"-TOR"`.
* `([A-Z]{2}|FREE)`: the two-uppercase branch is preferred, with fallback
  to `FREE` when its continuation fails, in Python alternation order.
A Python `$` also matches just before one final newline; `pyDollarAdjust`
applies that adjustment before the anchored matchers.  `\w` and `\d` are
modelled on their ASCII fragment. -/

/-- Python `\w` (ASCII fragment): letters, digits, underscore. -/
def isWordChar (c : Char) : Bool := c.isAlphanum || c == '_'

/-- Strip one final newline: an anchored Python `$` (no `re.MULTILINE`)
matches at the end of the string or just before a terminal `\n`. -/
def pyDollarAdjust (cs : List Char) : List Char :=
  match cs.getLast? with
  | some c => if c == '\n' then cs.dropLast else cs
  | none => cs

/-- Consume the optional separator `(-|#)?` (forced when present). -/
def consumeSep : List Char → List Char
  | [] => []
  | c :: t => if c == '-' || c == '#' then t else c :: t

/-- Match `(-|#)?(\d{1,3})-?(TOR)?$` against the tail of a servername,
returning the digit group and whether `TOR` was matched. -/
def parseTail (cs : List Char) : Option (List Char × Bool) :=
  let cs2 := consumeSep cs
  let ds := cs2.takeWhile Char.isDigit
  let rem := cs2.dropWhile Char.isDigit
  if 1 ≤ ds.length ∧ ds.length ≤ 3 then
    if rem = [] ∨ rem = ['-'] then some (ds, false)
    else if rem = ['T', 'O', 'R'] ∨ rem = ['-', 'T', 'O', 'R'] then some (ds, true)
    else none
  else none

/-- Captured groups of `re_short`: country code (group 2), number
(group 4), `TOR` flag (group 5). -/
structure ShortMatch where
  country : List Char
  number : List Char
  tor : Bool
deriving DecidableEq

/-- Matcher for `re_short = ^((\w\w)(-|#)?(\d{1,3})-?(TOR)?)$`. -/
def matchShort (cs : List Char) : Option ShortMatch :=
  match cs with
  | c1 :: c2 :: rest =>
    if isWordChar c1 && isWordChar c2 then
      match parseTail rest with
      | some (ds, tor) => some ⟨[c1, c2], ds, tor⟩
      | none => none
    else none
  | _ => none

/-- Captured groups of `re_long`: first country code (group 3), second
country code or `FREE` (group 5), number (group 7), `TOR` flag (group 8). -/
structure LongMatch where
  country : List Char
  country2 : List Char
  number : List Char
  tor : Bool
deriving DecidableEq

/-- The `FREE` alternative of `([A-Z]{2}|FREE)` in `re_long`. -/
def matchLongFree (cc1 : List Char) (cs : List Char) : Option LongMatch :=
  match cs with
  | d1 :: d2 :: d3 :: d4 :: rest =>
    if d1 = 'F' ∧ d2 = 'R' ∧ d3 = 'E' ∧ d4 = 'E' then
      match parseTail rest with
      | some (ds, tor) => some ⟨cc1, ['F', 'R', 'E', 'E'], ds, tor⟩
      | none => none
    else none
  | _ => none

/-- The alternation `([A-Z]{2}|FREE)` of `re_long` followed by its tail:
the two-uppercase branch is tried first, falling back to `FREE`. -/
def matchLongCC (cc1 : List Char) (cs : List Char) : Option LongMatch :=
  match cs with
  | a :: b :: rest =>
    if a.isUpper && b.isUpper then
      match parseTail rest with
      | some (ds, tor) => some ⟨cc1, [a, b], ds, tor⟩
      | none => matchLongFree cc1 (a :: b :: rest)
    else matchLongFree cc1 (a :: b :: rest)
  | cs => matchLongFree cc1 cs

/-- Matcher for
`re_long = ^(((\w\w)(-|#)?([A-Z]{2}|FREE))(-|#)?(\d{1,3})-?(TOR)?)$`. -/
def matchLong (cs : List Char) : Option LongMatch :=
  match cs with
  | c1 :: c2 :: rest =>
    if isWordChar c1 && isWordChar c2 then matchLongCC [c1, c2] (consumeSep rest)
    else none
  | _ => none

/-- `'-' + tor if tor is not None else ''`. -/
def torSuffix (tor : Bool) : List Char := if tor then ['-', 'T', 'O', 'R'] else []

/-- Python `number.lstrip("0")`. -/
def lstripZeros (l : List Char) : List Char := l.dropWhile (fun c => c == '0')

/-- The `return_servername` computed by `ServerManager.is_servername_valid`
(lines 506-536): `re_short` is tried first, then `re_long`; the short form
yields `CC#N[-TOR]` and the long form `CC1-CC2#N[-TOR]`, the number with
its leading zeros stripped.  `none` means neither regex matched. -/
def normalizeChars (cs : List Char) : Option (List Char) :=
  let cs2 := pyDollarAdjust cs
  match matchShort cs2 with
  | some g => some (g.country ++ '#' :: (lstripZeros g.number ++ torSuffix g.tor))
  | none =>
    match matchLong cs2 with
    | some g =>
      some (g.country ++ '-' :: (g.country2 ++ '#' :: (lstripZeros g.number ++ torSuffix g.tor)))
    | none => none

/-- String-level normalization (the `return_servername` computation). -/
def normalize_servername (s : String) : Option String :=
  (normalizeChars s.data).map String.mk

/-- The digit group captured by whichever regex matched (group 4 of
`re_short`, group 7 of `re_long`): the part of the input that
`lstrip("0")` is applied to during normalization. -/
def matchedNumber (cs : List Char) : Option (List Char) :=
  let cs2 := pyDollarAdjust cs
  match matchShort cs2 with
  | some g => some g.number
  | none => (matchLong cs2).map LongMatch.number

/-- Embedding of `ServerManager.is_servername_valid` on string input:
`return False if not return_servername else True`.  The computed
`return_servername` is never the empty string, so truthiness coincides with
`Option.isSome`. -/
def is_servername_valid (s : String) : Bool := (normalizeChars s.data).isSome

/-- A dynamically-typed Python argument: a `str`, or a non-string value. -/
inductive PyValue where
  | str (s : String)
  | intVal (n : Int)
  | noneVal
deriving DecidableEq

/-- Embedding of `ServerManager.is_servername_valid` including its dynamic
type guard (lines 500-504): a non-string argument raises `TypeError`. -/
def is_servername_valid_py : PyValue → Except String Bool
  | .str s => .ok (is_servername_valid s)
  | .intVal _ => .error "TypeError"
  | .noneVal => .error "TypeError"

/-- The validation step of `ServerManager.direct` (lines 161-172): the
uppercased, stripped `user_input` becomes the servername, but
`is_servername_valid` is applied to the raw `user_input`. -/
def direct_validate (user_input : String) : Except SelectionError String :=
  let servername := pyUpper (pyStrip user_input)
  if is_servername_valid user_input then .ok servername
  else .error .illegalServername

/-! ### Helper lemmas on the selection pipeline -/

lemma sortByScore_perm (pool : List LogicalServer) : (sortByScore pool).Perm pool :=
  List.perm_insertionSort _ _

lemma sortByScore_sorted (pool : List LogicalServer) :
    List.Sorted scoreLE (sortByScore pool) :=
  List.sorted_insertionSort _ _

lemma sortByScore_length (pool : List LogicalServer) :
    (sortByScore pool).length = pool.length :=
  (sortByScore_perm pool).length_eq

lemma get_fastest_entry_mem {pool : List LogicalServer} {r : Nat}
    {s : LogicalServer} (h : get_fastest_entry pool r = some s) : s ∈ pool := by
  simp only [get_fastest_entry] at h
  exact (sortByScore_perm pool).mem_iff.mp (List.take_subset _ _ (List.getElem?_mem h))

lemma get_fastest_entry_nil (r : Nat) : get_fastest_entry [] r = none := rfl

/-! ### Claim C1 -/

/-- Claim C1, counterexample: a catalog whose only entry has
`Features = 3` (both the SecureCore bit and the Tor bit set) is kept in the
pool and `fastest` returns it, so the server returned by `fastest` can carry
the SecureCore and Tor feature bits. -/
theorem fastest_returns_secure_core_bit_counterexample :
    fastest [⟨"SC5", 0, 1, 3, 1, [⟨"10.0.0.1"⟩]⟩] 0 0 = .ok ("SC5", ["10.0.0.1"])
    ∧ Nat.testBit 3 0 = true ∧ Nat.testBit 3 1 = true := by decide

/-- Claim C1 (amended): the server name returned by `fastest` always names a
tier-eligible catalog entry whose `Features` value is not exactly `1`
(SecureCore) and not exactly `2` (Tor); servers whose bitmask merely
contains those bits (e.g. `Features = 3`) may still be picked. -/
theorem fastest_excludes_exact_secure_core_and_tor
    (catalog : List LogicalServer) (user_tier r : Nat) (name : String)
    (ip_list : List String)
    (h : fastest catalog user_tier r = .ok (name, ip_list)) :
    ∃ s ∈ filter_servers catalog user_tier,
      s.Name = name ∧ s.Features ≠ 1 ∧ s.Features ≠ 2 := by
  simp only [fastest] at h
  rcases hg : get_fastest_entry
      ((filter_servers catalog user_tier).filter
        (fun s => !(s.Features == 1 || s.Features == 2))) r with _ | srv
  · rw [hg] at h; exact absurd h (by simp)
  · rw [hg] at h
    have hmem := get_fastest_entry_mem hg
    rw [List.mem_filter] at hmem
    obtain ⟨hmem, hfeat⟩ := hmem
    simp only [Bool.not_eq_eq_eq_not, Bool.not_true, Bool.or_eq_false_iff,
      beq_eq_false_iff_ne, ne_eq] at hfeat
    dsimp only at h
    cases hip : generate_ip_list srv.Name (filter_servers catalog user_tier) with
    | none => rw [hip] at h; exact absurd h (by simp)
    | some ips =>
      rw [hip] at h
      have hname : srv.Name = name := by
        have := h
        simp only [Except.ok.injEq, Prod.mk.injEq] at this
        exact this.1
      exact ⟨srv, hmem, hname, hfeat.1, hfeat.2⟩

/-- Claim C1, witness for the amended theorem at a concrete catalog. -/
theorem fastest_excludes_exact_secure_core_and_tor_witness :
    ∃ s ∈ filter_servers [⟨"A#1", 0, 1, 0, 1, [⟨"9.9.9.9"⟩]⟩] 0,
      s.Name = "A#1" ∧ s.Features ≠ 1 ∧ s.Features ≠ 2 :=
  fastest_excludes_exact_secure_core_and_tor
    [⟨"A#1", 0, 1, 0, 1, [⟨"9.9.9.9"⟩]⟩] 0 0 "A#1" ["9.9.9.9"] (by decide)

/-! ### Claim C2 -/

/-- Claim C2, counterexample: on a profile whose first `dev` line is
`dev tun0` the code does not return `tun`; it raises
`IllegalVirtualDevice`, because the second whitespace token is taken
verbatim and `"tun0"` is not in `["tun", "tap"]`. -/
theorem extract_virtual_device_type_tun0_counterexample :
    extract_virtual_device_type ["dev tun0"] = .illegalVirtualDevice
    ∧ extract_virtual_device_type ["dev tun0"] ≠ .ok "tun" := by decide

/-- Claim C2 (amended): `extract_virtual_device_type` raises
`IllegalVirtualDevice` on a profile whose first `dev` line is `dev tun0`
(the token is not reduced to `tun`) and likewise on `dev ppp0`; it raises
`VirtualDeviceNotFound` on a profile with no line containing `dev`; and it
returns the device type verbatim for `dev tun` and `dev tap`. -/
theorem extract_virtual_device_type_spec :
    extract_virtual_device_type ["dev tun0"] = .illegalVirtualDevice
    ∧ extract_virtual_device_type ["dev ppp0"] = .illegalVirtualDevice
    ∧ extract_virtual_device_type ["remote x", "port 1194"] = .virtualDeviceNotFound
    ∧ extract_virtual_device_type ["remote x", "dev tun", "port 1194"] = .ok "tun"
    ∧ extract_virtual_device_type ["dev tap"] = .ok "tap" := by decide

/-! ### Claim C3 -/

/-- Claim C3, counterexample: the claimed case-insensitive round trips fail
on the code.  `pt#01-tor` and `is-de01` are rejected outright (the regexes
demand an uppercase `TOR` suffix and an uppercase second country code, and
`direct` validates the raw user input), and the accepted `pt1` normalizes
to `pt#1`, not to the canonical uppercase `PT#1`. -/
theorem servername_case_insensitive_counterexample :
    is_servername_valid "pt#01-tor" = false
    ∧ is_servername_valid "is-de01" = false
    ∧ normalize_servername "pt1" = some "pt#1"
    ∧ normalize_servername "pt1" ≠ some "PT#1" := by decide

/-- Claim C3 (amended): validation is case-sensitive where the regexes use
literals.  Lowercase `pt1` is accepted and normalizes without uppercasing
to `pt#1`; `pt#01-tor` and `is-de01` are rejected by `direct` because
`is_servername_valid` runs on the raw input and requires the literal
uppercase `TOR` and an uppercase second country code; their uppercase forms
normalize to the canonical `PT#1-TOR` and `IS-DE#1`. -/
theorem servername_validation_case_sensitivity :
    is_servername_valid "pt1" = true
    ∧ normalize_servername "pt1" = some "pt#1"
    ∧ is_servername_valid "pt#01-tor" = false
    ∧ is_servername_valid "is-de01" = false
    ∧ direct_validate "pt#01-tor" = .error .illegalServername
    ∧ direct_validate "is-de01" = .error .illegalServername
    ∧ normalize_servername "PT#01-TOR" = some "PT#1-TOR"
    ∧ normalize_servername "IS-DE01" = some "IS-DE#1" := by decide

/-! ### Claim C5 -/

/-- Claim C5: a refresh fetches iff the cache file is absent, or it was
last modified more than `REFRESH_INTERVAL` minutes before now, or the
caller forces it; when the fetch happens the raw response overwrites the
cache; a file 20 minutes old triggers a non-forced fetch and one 5 minutes
old does not. -/
theorem cache_refresh_iff :
    (∀ (mtime : Option Int) (now : Int) (force : Bool),
      cache_refresh_due mtime now force = true ↔
        (mtime = none ∨ (∃ m, mtime = some m ∧ now - m > REFRESH_INTERVAL)
          ∨ force = true))
    ∧ (∀ (st : CacheState) (now : Int) (force : Bool) (response : String),
        cache_refresh_due st.mtime now force = true →
        cache_servers st now force response = ⟨some now, some response⟩)
    ∧ cache_refresh_due (some 0) 20 false = true
    ∧ cache_refresh_due (some 0) 5 false = false := by
  refine ⟨?_, ?_, by decide, by decide⟩
  · intro mtime now force
    cases mtime with
    | none => simp [cache_refresh_due]
    | some m =>
      have hm : now - REFRESH_INTERVAL > m ↔ now - m > REFRESH_INTERVAL := by
        constructor <;> (intro h; omega)
      simp [cache_refresh_due, hm]
  · intro st now force response h
    simp [cache_servers, h]

/-- Claim C5, witness: a concrete overwriting fetch on a 20-minute-old
cache file. -/
theorem cache_refresh_iff_witness :
    cache_refresh_due (some 0) 20 false = true
    ∧ cache_servers ⟨some 0, some "old"⟩ 20 false "new" = ⟨some 20, some "new"⟩ :=
  ⟨by decide, cache_refresh_iff.2.1 ⟨some 0, some "old"⟩ 20 false "new" (by decide)⟩

/-! ### Claim C8 -/

/-- Claim C8, counterexample: `is_servername_valid` is not exception-free
on every input; a non-string argument raises `TypeError`. -/
theorem is_servername_valid_raises_counterexample :
    is_servername_valid_py (.intVal 5) = .error "TypeError" := by decide

/-- Claim C8 (amended): `is_servername_valid` returns a boolean without
raising exactly on string arguments; every non-string argument raises
`TypeError`. -/
theorem is_servername_valid_total_on_strings :
    ∀ v : PyValue, (∃ b, is_servername_valid_py v = .ok b) ↔ ∃ s, v = .str s := by
  intro v
  cases v <;> simp [is_servername_valid_py]

/-! ### Claim C4 -/

lemma countManaged_nil (virtual_device_name : String) :
    countManaged virtual_device_name [] = 0 := rfl

lemma countManaged_cons (virtual_device_name : String) (c : NMConnection)
    (t : List NMConnection) :
    countManaged virtual_device_name (c :: t) =
      (if is_proton_connection virtual_device_name c then 1 else 0)
        + countManaged virtual_device_name t := by
  simp only [countManaged, List.filter_cons]
  by_cases h : is_proton_connection virtual_device_name c <;> simp [h, Nat.add_comm]

lemma countManaged_remove (virtual_device_name : String)
    (l : List NMConnection) :
    countManaged virtual_device_name (remove_connection virtual_device_name l) =
      countManaged virtual_device_name l - 1 := by
  induction l with
  | nil => rfl
  | cons c t ih =>
    by_cases h : is_proton_connection virtual_device_name c
    · simp [remove_connection, h, countManaged_cons]
    · simp [remove_connection, h, countManaged_cons, ih]

lemma countManaged_append_single (virtual_device_name : String)
    (l : List NMConnection) (c : NMConnection)
    (h : is_proton_connection virtual_device_name c = true) :
    countManaged virtual_device_name (l ++ [c]) =
      countManaged virtual_device_name l + 1 := by
  simp [countManaged, List.filter_append, List.filter_cons, h]

lemma is_proton_set_virtual_device (virtual_device_name : String)
    (c : NMConnection) (h : c.conn_type = "vpn") :
    is_proton_connection virtual_device_name (set_virtual_device virtual_device_name c) = true := by
  simp [is_proton_connection, set_virtual_device, h]

lemma countManaged_add_connection (virtual_device_name : String)
    (conns : List NMConnection) (imported : NMConnection)
    (h : imported.conn_type = "vpn") :
    countManaged virtual_device_name (add_connection virtual_device_name conns imported) =
      (countManaged virtual_device_name conns - 1) + 1 := by
  simp only [add_connection]
  rw [countManaged_append_single _ _ _ (is_proton_set_virtual_device _ _ h),
    countManaged_remove]

/-- Claim C4: the managed-record invariant.  Starting from a record set
with at most one managed record (a record of type `"vpn"` whose `dev` item
is the fixed virtual-device name), a successful `add_connection` — which
first removes any pre-existing managed record, tolerating its absence —
leaves exactly one managed record, and so does a second `add_connection`
with a different profile. -/
theorem add_connection_single_managed_record
    (virtual_device_name : String) (conns : List NMConnection)
    (imp1 imp2 : NMConnection)
    (h1 : imp1.conn_type = "vpn") (h2 : imp2.conn_type = "vpn")
    (hinv : countManaged virtual_device_name conns ≤ 1) :
    countManaged virtual_device_name
        (add_connection virtual_device_name conns imp1) = 1
    ∧ countManaged virtual_device_name
        (add_connection virtual_device_name
          (add_connection virtual_device_name conns imp1) imp2) = 1 := by
  have e1 := countManaged_add_connection virtual_device_name conns imp1 h1
  have e2 := countManaged_add_connection virtual_device_name
    (add_connection virtual_device_name conns imp1) imp2 h2
  constructor
  · omega
  · rw [e2, e1]
    omega

/-- Claim C4, witness: two successive adds of distinct profiles on a
concrete record set holding one unrelated record. -/
theorem add_connection_single_managed_record_witness :
    countManaged "proton0"
        (add_connection "proton0" [⟨"eth0", "ethernet", none⟩] ⟨"a.ovpn", "vpn", none⟩) = 1
    ∧ countManaged "proton0"
        (add_connection "proton0"
          (add_connection "proton0" [⟨"eth0", "ethernet", none⟩] ⟨"a.ovpn", "vpn", none⟩)
          ⟨"b.ovpn", "vpn", none⟩) = 1 :=
  add_connection_single_managed_record "proton0" [⟨"eth0", "ethernet", none⟩]
    ⟨"a.ovpn", "vpn", none⟩ ⟨"b.ovpn", "vpn", none⟩ rfl rfl (by decide)

/-! ### Claim C7 -/

/-- Claim C7: `feature_f` raises the `ValueError` for an unknown feature
literal whatever the catalog (the literal is resolved before any catalog
access), and for a known literal it raises `ServerListEmptyError` whenever
the tier-filtered catalog has no entry whose `Features` value equals the
literal's bitmask exactly. -/
theorem feature_f_unknown_literal_and_empty_pool :
    (∀ (catalog : List LogicalServer) (user_tier r : Nat) (literal : String),
      allowed_features.lookup (pyLower (pyStrip literal)) = none →
      feature_f catalog user_tier literal r = .error .validationError)
    ∧ (∀ (catalog : List LogicalServer) (user_tier r : Nat) (literal : String)
        (feature : Nat),
      allowed_features.lookup (pyLower (pyStrip literal)) = some feature →
      (filter_servers catalog user_tier).filter (fun s => s.Features == feature) = [] →
      feature_f catalog user_tier literal r = .error .emptyPool) := by
  constructor
  · intro catalog user_tier r literal h
    simp only [feature_f, h]
  · intro catalog user_tier r literal feature h hpool
    simp only [feature_f, h, hpool]
    rfl

/-- Claim C7, witness: `byFeature("bogus")` raises the validation error on
an arbitrary concrete catalog, and `byFeature("p2p")` raises the empty-pool
error on a catalog whose only entry is not P2P-flagged. -/
theorem feature_f_unknown_literal_and_empty_pool_witness :
    feature_f [⟨"A#1", 0, 1, 2, 1, []⟩] 0 "bogus" 0 = .error .validationError
    ∧ feature_f [⟨"A#1", 0, 1, 2, 1, []⟩] 0 "p2p" 0 = .error .emptyPool :=
  ⟨feature_f_unknown_literal_and_empty_pool.1 [⟨"A#1", 0, 1, 2, 1, []⟩] 0 0 "bogus"
      (by decide),
    feature_f_unknown_literal_and_empty_pool.2 [⟨"A#1", 0, 1, 2, 1, []⟩] 0 0 "p2p" 4
      (by decide) (by decide)⟩

/-! ### Claim C10 -/

/-- Claim C10: when the eligible pool is empty the selection fails with the
bare `IndexError` escaping `random.choice` on an empty list, not with any
documented selection error: `fastest` does so when every tier-eligible
server has `Features` exactly `1` or exactly `2`, and `random_c` does so on
an empty tier-filtered catalog. -/
theorem empty_pool_raises_bare_index_error :
    (∀ (catalog : List LogicalServer) (user_tier r : Nat),
      (∀ s ∈ filter_servers catalog user_tier, s.Features = 1 ∨ s.Features = 2) →
      fastest catalog user_tier r = .error .indexError)
    ∧ (∀ (catalog : List LogicalServer) (user_tier r : Nat),
      filter_servers catalog user_tier = [] →
      random_c catalog user_tier r = .error .indexError) := by
  constructor
  · intro catalog user_tier r h
    have hpool : (filter_servers catalog user_tier).filter
        (fun s => !(s.Features == 1 || s.Features == 2)) = [] := by
      rw [List.filter_eq_nil_iff]
      intro s hs
      rcases h s hs with h1 | h1 <;> simp [h1]
    simp only [fastest, hpool, get_fastest_entry_nil]
  · intro catalog user_tier r h
    simp only [random_c, h]
    rfl

/-! ### Claim C6 -/

lemma sortByScore_filter_lt_le {pool : List LogicalServer} {s : LogicalServer}
    {i : Nat} (hi : i < (sortByScore pool).length)
    (hs : (sortByScore pool)[i] = s) :
    ((sortByScore pool).filter (fun t => decide (t.Score < s.Score))).length ≤ i := by
  set L := sortByScore pool with hL
  have hsorted : List.Pairwise scoreLE L := sortByScore_sorted pool
  have hdropSorted : List.Pairwise scoreLE (L.drop i) :=
    List.Pairwise.sublist (List.drop_sublist i L) hsorted
  have hdropeq : L.drop i = s :: L.drop (i + 1) := by
    rw [List.drop_eq_getElem_cons hi, hs]
  have hfilterdrop :
      (L.drop i).filter (fun t => decide (t.Score < s.Score)) = [] := by
    rw [List.filter_eq_nil_iff]
    intro a ha
    rw [hdropeq] at ha hdropSorted
    simp only [decide_eq_true_eq]
    rcases List.mem_cons.mp ha with rfl | ha2
    · exact lt_irrefl _
    · exact not_lt.mpr (List.rel_of_sorted_cons hdropSorted a ha2)
  have hsplit : L.filter (fun t => decide (t.Score < s.Score)) =
      (L.take i).filter (fun t => decide (t.Score < s.Score))
        ++ (L.drop i).filter (fun t => decide (t.Score < s.Score)) := by
    rw [← List.filter_append, List.take_append_drop]
  rw [hsplit, hfilterdrop, List.append_nil]
  have h1 := List.length_filter_le (fun t => decide (t.Score < s.Score)) (L.take i)
  have h2 : (L.take i).length ≤ i := by
    rw [List.length_take]; exact min_le_left _ _
  omega

/-- Claim C6: for a pool of at least 50 entries, `get_fastest_server`
always returns the name of a pool entry beaten by at most 3 others
(i.e. one of the 4 lowest-Score entries); for a smaller pool the choice
ignores the random seed entirely and is the name of a lowest-Score entry;
on a non-empty pool a choice always exists. -/
theorem get_fastest_server_top4_top1 :
    (∀ (pool : List LogicalServer) (r : Nat) (s : LogicalServer),
      50 ≤ pool.length → get_fastest_entry pool r = some s →
      get_fastest_server pool r = some s.Name ∧ s ∈ pool ∧
        (pool.filter (fun t => decide (t.Score < s.Score))).length ≤ 3)
    ∧ (∀ (pool : List LogicalServer) (r1 r2 : Nat), pool.length < 50 →
      get_fastest_entry pool r1 = get_fastest_entry pool r2)
    ∧ (∀ (pool : List LogicalServer) (r : Nat) (s : LogicalServer),
      pool.length < 50 → get_fastest_entry pool r = some s →
      get_fastest_server pool r = some s.Name ∧ s ∈ pool ∧
        ∀ t ∈ pool, s.Score ≤ t.Score)
    ∧ (∀ pool : List LogicalServer, pool ≠ [] →
      ∃ s, get_fastest_entry pool 0 = some s) := by
  refine ⟨?_, ?_, ?_, ?_⟩
  · intro pool r s h50 hg
    refine ⟨by simp [get_fastest_server, hg], get_fastest_entry_mem hg, ?_⟩
    simp only [get_fastest_entry] at hg
    have hlen := sortByScore_length pool
    have hsz : (if (sortByScore pool).length ≥ 50 then 4 else 1) = 4 := by
      rw [if_pos]; omega
    rw [hsz] at hg
    obtain ⟨hlt, hget⟩ := List.getElem?_eq_some.mp hg
    have hlt4 : r % ((sortByScore pool).take 4).length < 4 := by
      have := List.length_take 4 (sortByScore pool)
      omega
    have hltL : r % ((sortByScore pool).take 4).length < (sortByScore pool).length := by
      have := List.length_take 4 (sortByScore pool)
      omega
    rw [List.getElem_take] at hget
    have hbound := sortByScore_filter_lt_le hltL hget
    have hperm := ((sortByScore_perm pool).filter
      (fun t => decide (t.Score < s.Score))).length_eq
    omega
  · intro pool r1 r2 h50
    simp only [get_fastest_entry]
    have hlen := sortByScore_length pool
    have hsz : (if (sortByScore pool).length ≥ 50 then 4 else 1) = 1 := by
      rw [if_neg]; omega
    rw [hsz]
    cases hL : sortByScore pool with
    | nil => rfl
    | cons a t => simp [Nat.mod_one]
  · intro pool r s h50 hg
    refine ⟨by simp [get_fastest_server, hg], get_fastest_entry_mem hg, ?_⟩
    intro t ht
    simp only [get_fastest_entry] at hg
    have hlen := sortByScore_length pool
    have hsz : (if (sortByScore pool).length ≥ 50 then 4 else 1) = 1 := by
      rw [if_neg]; omega
    rw [hsz] at hg
    have htL : t ∈ sortByScore pool := (sortByScore_perm pool).mem_iff.mpr ht
    have hsorted : List.Pairwise scoreLE (sortByScore pool) := sortByScore_sorted pool
    cases hL : sortByScore pool with
    | nil => rw [hL] at hg; simp at hg
    | cons a rest =>
      rw [hL] at hg
      have ha : a = s := by
        simp only [List.take_succ_cons, List.take_zero, List.length_cons,
          List.length_nil, Nat.zero_add, Nat.mod_one, List.getElem?_cons_zero,
          Option.some.injEq] at hg
        exact hg
      rw [hL] at htL hsorted
      rcases List.mem_cons.mp htL with rfl | htrest
      · rw [ha]
      · rw [← ha]
        exact List.rel_of_sorted_cons hsorted t htrest
  · intro pool hne
    simp only [get_fastest_entry]
    cases hL : sortByScore pool with
    | nil =>
      exfalso
      have := sortByScore_length pool
      rw [hL] at this
      exact hne (List.length_eq_zero.mp this.symm)
    | cons a t =>
      by_cases h50 : (a :: t).length ≥ 50
      · rw [if_pos h50]
        exact ⟨a, by simp [List.take_succ_cons, Nat.zero_mod]⟩
      · rw [if_neg h50]
        exact ⟨a, by simp⟩

/-- Claim C6, witness: the top-4 bound on a 50-entry pool and the
deterministic minimum on a 2-entry pool, at concrete seeds. -/
theorem get_fastest_server_top4_top1_witness :
    get_fastest_server (List.replicate 50 ⟨"S", 0, 1, 0, 7, []⟩) 2 = some "S"
    ∧ ((List.replicate 50 (⟨"S", 0, 1, 0, 7, []⟩ : LogicalServer)).filter
        (fun t => decide (t.Score < (7 : Rat)))).length ≤ 3
    ∧ get_fastest_entry [⟨"B", 0, 1, 0, 2, []⟩, ⟨"A", 0, 1, 0, 1, []⟩] 3
        = get_fastest_entry [⟨"B", 0, 1, 0, 2, []⟩, ⟨"A", 0, 1, 0, 1, []⟩] 8
    ∧ get_fastest_server [⟨"B", 0, 1, 0, 2, []⟩, ⟨"A", 0, 1, 0, 1, []⟩] 5 = some "A" :=
  ⟨(get_fastest_server_top4_top1.1 (List.replicate 50 ⟨"S", 0, 1, 0, 7, []⟩) 2
      ⟨"S", 0, 1, 0, 7, []⟩ (by decide) (by decide)).1,
   (get_fastest_server_top4_top1.1 (List.replicate 50 ⟨"S", 0, 1, 0, 7, []⟩) 2
      ⟨"S", 0, 1, 0, 7, []⟩ (by decide) (by decide)).2.2,
   get_fastest_server_top4_top1.2.1 [⟨"B", 0, 1, 0, 2, []⟩, ⟨"A", 0, 1, 0, 1, []⟩] 3 8
      (by decide),
   (get_fastest_server_top4_top1.2.2.1 [⟨"B", 0, 1, 0, 2, []⟩, ⟨"A", 0, 1, 0, 1, []⟩] 5
      ⟨"A", 0, 1, 0, 1, []⟩ (by decide) (by decide)).1⟩

/-! ### Claim C9: helper lemmas about the grammar matchers -/

lemma upper_not_digit {c : Char} (h : c.isUpper = true) : c.isDigit = false := by
  simp [Char.isUpper] at h
  simp [Char.isDigit]
  intro h48
  by_contra h57
  simp at h57
  exact absurd (UInt32.le_trans h.1 h57) (by decide)

lemma digit_ne_newline {c : Char} (h : c.isDigit = true) : (c == '\n') = false := by
  by_contra hc
  simp at hc
  rw [hc] at h
  exact absurd h (by decide)

lemma takeWhile_append_left (p : Char → Bool) (l1 l2 : List Char)
    (h1 : ∀ a ∈ l1, p a = true) (h2 : ∀ c t, l2 = c :: t → p c = false) :
    (l1 ++ l2).takeWhile p = l1 := by
  induction l1 with
  | nil =>
    cases l2 with
    | nil => rfl
    | cons c t => simp [List.takeWhile_cons, h2 c t rfl]
  | cons a l ih =>
    simp only [List.cons_append, List.takeWhile_cons, h1 a (by simp), if_true]
    rw [ih (fun x hx => h1 x (by simp [hx]))]

lemma dropWhile_append_right (p : Char → Bool) (l1 l2 : List Char)
    (h1 : ∀ a ∈ l1, p a = true) (h2 : ∀ c t, l2 = c :: t → p c = false) :
    (l1 ++ l2).dropWhile p = l2 := by
  induction l1 with
  | nil =>
    cases l2 with
    | nil => rfl
    | cons c t => simp [List.dropWhile_cons, h2 c t rfl]
  | cons a l ih =>
    simp only [List.cons_append, List.dropWhile_cons, h1 a (by simp), if_true]
    exact ih (fun x hx => h1 x (by simp [hx]))

lemma getLast?_append_right {l1 l2 : List Char} (h : l2 ≠ []) :
    (l1 ++ l2).getLast? = l2.getLast? := by
  rw [List.getLast?_append]
  cases hl : l2.getLast? with
  | none => exact absurd (List.getLast?_eq_none_iff.mp hl) h
  | some c => rfl

lemma lstripZeros_subset {l : List Char} {a : Char} (h : a ∈ lstripZeros l) :
    a ∈ l :=
  (List.dropWhile_sublist _).subset h

lemma lstripZeros_length_le (l : List Char) : (lstripZeros l).length ≤ l.length :=
  (List.dropWhile_sublist _).length_le

lemma lstripZeros_ne_nil {l : List Char}
    (h : ∃ c ∈ l, (c == '0') = false) : lstripZeros l ≠ [] := by
  revert h
  induction l with
  | nil =>
    intro h
    obtain ⟨c, hc, _⟩ := h
    exact absurd hc (List.not_mem_nil c)
  | cons c t ih =>
    intro h
    simp only [lstripZeros, List.dropWhile_cons]
    by_cases hc0 : (c == '0') = true
    · rw [if_pos hc0]
      apply ih
      obtain ⟨d, hd, hd0⟩ := h
      rcases List.mem_cons.mp hd with rfl | hdt
      · rw [hc0] at hd0; cases hd0
      · exact ⟨d, hdt, hd0⟩
    · rw [if_neg hc0]
      simp

lemma lstripZeros_head_ne {l : List Char} {d : Char} {t : List Char}
    (h : lstripZeros l = d :: t) : (d == '0') = false := by
  revert h
  induction l with
  | nil => intro h; cases h
  | cons c t2 ih =>
    intro h
    simp only [lstripZeros, List.dropWhile_cons] at h
    by_cases hc : (c == '0') = true
    · rw [if_pos hc] at h
      exact ih h
    · rw [if_neg hc] at h
      injection h with h1 _
      rw [← h1]
      simp only [Bool.not_eq_true] at hc
      exact hc

lemma lstripZeros_idem (l : List Char) :
    lstripZeros (lstripZeros l) = lstripZeros l := by
  cases h : lstripZeros l with
  | nil => rfl
  | cons d t =>
    have hd := lstripZeros_head_ne h
    simp [lstripZeros, List.dropWhile_cons, hd]

lemma pyDollarAdjust_eq_self {l : List Char}
    (h : ∀ c, l.getLast? = some c → (c == '\n') = false) :
    pyDollarAdjust l = l := by
  cases hg : l.getLast? with
  | none => simp [pyDollarAdjust, hg]
  | some c => simp [pyDollarAdjust, hg, h c hg]

lemma out_last {pre n : List Char} {tor : Bool} (hne : n ≠ [])
    (hdig : ∀ c ∈ n, c.isDigit = true) :
    ∀ c, (pre ++ (n ++ torSuffix tor)).getLast? = some c → (c == '\n') = false := by
  intro c hc
  cases tor with
  | false =>
    have h0 : torSuffix false = [] := rfl
    rw [h0, List.append_nil, getLast?_append_right hne] at hc
    exact digit_ne_newline (hdig c (List.mem_of_mem_getLast? hc))
  | true =>
    have h1 : torSuffix true = ['-', 'T', 'O', 'R'] := rfl
    rw [h1, ← List.append_assoc, getLast?_append_right (by simp)] at hc
    have hr : (['-', 'T', 'O', 'R'] : List Char).getLast? = some 'R' := by decide
    rw [hr] at hc
    injection hc with hc2
    rw [← hc2]
    decide

lemma parseTail_inv {cs ds : List Char} {tor : Bool}
    (h : parseTail cs = some (ds, tor)) :
    (∀ c ∈ ds, c.isDigit = true) ∧ 1 ≤ ds.length ∧ ds.length ≤ 3 := by
  simp only [parseTail] at h
  by_cases h1 : 1 ≤ ((consumeSep cs).takeWhile Char.isDigit).length ∧
      ((consumeSep cs).takeWhile Char.isDigit).length ≤ 3
  · rw [if_pos h1] at h
    have hds : ds = (consumeSep cs).takeWhile Char.isDigit := by
      by_cases h2 : (consumeSep cs).dropWhile Char.isDigit = [] ∨
          (consumeSep cs).dropWhile Char.isDigit = ['-']
      · rw [if_pos h2] at h
        simp only [Option.some.injEq, Prod.mk.injEq] at h
        exact h.1.symm
      · rw [if_neg h2] at h
        by_cases h3 : (consumeSep cs).dropWhile Char.isDigit = ['T', 'O', 'R'] ∨
            (consumeSep cs).dropWhile Char.isDigit = ['-', 'T', 'O', 'R']
        · rw [if_pos h3] at h
          simp only [Option.some.injEq, Prod.mk.injEq] at h
          exact h.1.symm
        · rw [if_neg h3] at h; cases h
    subst hds
    exact ⟨fun c hc => List.mem_takeWhile_imp hc, h1.1, h1.2⟩
  · rw [if_neg h1] at h; cases h

lemma parseTail_canonical (n : List Char) (tor : Bool) (hne : n ≠ [])
    (hdig : ∀ c ∈ n, c.isDigit = true) (hlen : n.length ≤ 3) :
    parseTail ('#' :: (n ++ torSuffix tor)) = some (n, tor) := by
  have hcons : consumeSep ('#' :: (n ++ torSuffix tor)) = n ++ torSuffix tor := by
    simp [consumeSep]
  have hsfx : ∀ c t, torSuffix tor = c :: t → c.isDigit = false := by
    cases tor with
    | false => intro c t hct; simp [torSuffix] at hct
    | true =>
      intro c t hct
      simp only [torSuffix, if_pos] at hct
      injection hct with h1 _
      rw [← h1]
      decide
  have htw := takeWhile_append_left Char.isDigit n (torSuffix tor) hdig hsfx
  have hdw := dropWhile_append_right Char.isDigit n (torSuffix tor) hdig hsfx
  have hlen1 : 1 ≤ n.length := List.length_pos.mpr hne
  simp only [parseTail, hcons, htw, hdw]
  rw [if_pos ⟨hlen1, hlen⟩]
  cases tor with
  | false => simp [torSuffix]
  | true => simp [torSuffix]

lemma matchShort_canonical (c1 c2 : Char) (n : List Char) (tor : Bool)
    (h1 : isWordChar c1 = true) (h2 : isWordChar c2 = true) (hne : n ≠ [])
    (hdig : ∀ c ∈ n, c.isDigit = true) (hlen : n.length ≤ 3) :
    matchShort (c1 :: c2 :: '#' :: (n ++ torSuffix tor)) = some ⟨[c1, c2], n, tor⟩ := by
  simp [matchShort, h1, h2, parseTail_canonical n tor hne hdig hlen]

lemma matchShort_sep_nondigit_none (c1 c2 a : Char) (t : List Char)
    (ha : a.isDigit = false) :
    matchShort (c1 :: c2 :: '-' :: a :: t) = none := by
  have hpt : parseTail ('-' :: a :: t) = none := by
    have hcons : consumeSep ('-' :: a :: t) = a :: t := by simp [consumeSep]
    simp only [parseTail, hcons, List.takeWhile_cons, ha]
    simp
  simp [matchShort, hpt]

lemma matchLong_canonical_cc (c1 c2 a b : Char) (n : List Char) (tor : Bool)
    (h1 : isWordChar c1 = true) (h2 : isWordChar c2 = true)
    (ha : a.isUpper = true) (hb : b.isUpper = true) (hne : n ≠ [])
    (hdig : ∀ c ∈ n, c.isDigit = true) (hlen : n.length ≤ 3) :
    matchLong (c1 :: c2 :: '-' :: a :: b :: '#' :: (n ++ torSuffix tor)) =
      some ⟨[c1, c2], [a, b], n, tor⟩ := by
  have hcs : consumeSep ('-' :: a :: b :: '#' :: (n ++ torSuffix tor)) =
      a :: b :: '#' :: (n ++ torSuffix tor) := by simp [consumeSep]
  simp [matchLong, h1, h2, hcs, matchLongCC, ha, hb,
    parseTail_canonical n tor hne hdig hlen]

lemma matchLong_canonical_free (c1 c2 : Char) (n : List Char) (tor : Bool)
    (h1 : isWordChar c1 = true) (h2 : isWordChar c2 = true) (hne : n ≠ [])
    (hdig : ∀ c ∈ n, c.isDigit = true) (hlen : n.length ≤ 3) :
    matchLong (c1 :: c2 :: '-' :: 'F' :: 'R' :: 'E' :: 'E' :: '#' :: (n ++ torSuffix tor)) =
      some ⟨[c1, c2], ['F', 'R', 'E', 'E'], n, tor⟩ := by
  have hcs : consumeSep ('-' :: 'F' :: 'R' :: 'E' :: 'E' :: '#' :: (n ++ torSuffix tor)) =
      'F' :: 'R' :: 'E' :: 'E' :: '#' :: (n ++ torSuffix tor) := by simp [consumeSep]
  have hfail : parseTail ('E' :: 'E' :: '#' :: (n ++ torSuffix tor)) = none := by
    have hc2 : consumeSep ('E' :: 'E' :: '#' :: (n ++ torSuffix tor)) =
        'E' :: 'E' :: '#' :: (n ++ torSuffix tor) := by simp [consumeSep]
    simp only [parseTail, hc2, List.takeWhile_cons]
    simp
  simp [matchLong, h1, h2, hcs, matchLongCC, hfail, matchLongFree,
    parseTail_canonical n tor hne hdig hlen]

lemma matchShort_inv {cs : List Char} {g : ShortMatch}
    (h : matchShort cs = some g) :
    ∃ c1 c2 rest, cs = c1 :: c2 :: rest ∧ isWordChar c1 = true ∧
      isWordChar c2 = true ∧ g.country = [c1, c2] ∧
      parseTail rest = some (g.number, g.tor) := by
  rcases cs with _ | ⟨c1, _ | ⟨c2, rest⟩⟩
  · simp [matchShort] at h
  · simp [matchShort] at h
  · simp only [matchShort] at h
    by_cases hw : (isWordChar c1 && isWordChar c2) = true
    · rw [if_pos hw] at h
      cases hp : parseTail rest with
      | none => rw [hp] at h; cases h
      | some p =>
        obtain ⟨ds, tor⟩ := p
        rw [hp] at h
        simp only [Option.some.injEq] at h
        subst h
        exact ⟨c1, c2, rest, rfl, (Bool.and_eq_true _ _ ▸ hw).1,
          (Bool.and_eq_true _ _ ▸ hw).2, rfl, hp⟩
    · rw [if_neg hw] at h; cases h

lemma matchLongFree_inv {cc1 cs : List Char} {g : LongMatch}
    (h : matchLongFree cc1 cs = some g) :
    g.country = cc1 ∧ g.country2 = ['F', 'R', 'E', 'E'] ∧
      ∃ rest, cs = 'F' :: 'R' :: 'E' :: 'E' :: rest ∧
        parseTail rest = some (g.number, g.tor) := by
  rcases cs with _ | ⟨d1, _ | ⟨d2, _ | ⟨d3, _ | ⟨d4, rest⟩⟩⟩⟩
  · simp [matchLongFree] at h
  · simp [matchLongFree] at h
  · simp [matchLongFree] at h
  · simp [matchLongFree] at h
  · simp only [matchLongFree] at h
    by_cases hF : d1 = 'F' ∧ d2 = 'R' ∧ d3 = 'E' ∧ d4 = 'E'
    · rw [if_pos hF] at h
      obtain ⟨rfl, rfl, rfl, rfl⟩ := hF
      cases hp : parseTail rest with
      | none => rw [hp] at h; cases h
      | some p =>
        obtain ⟨ds, tor⟩ := p
        rw [hp] at h
        simp only [Option.some.injEq] at h
        subst h
        exact ⟨rfl, rfl, rest, rfl, hp⟩
    · rw [if_neg hF] at h; cases h

lemma matchLongCC_inv {cc1 cs : List Char} {g : LongMatch}
    (h : matchLongCC cc1 cs = some g) :
    (∃ a b rest, cs = a :: b :: rest ∧ a.isUpper = true ∧ b.isUpper = true ∧
      g.country = cc1 ∧ g.country2 = [a, b] ∧
      parseTail rest = some (g.number, g.tor))
    ∨ matchLongFree cc1 cs = some g := by
  rcases cs with _ | ⟨a, _ | ⟨b, rest⟩⟩
  · right; simp only [matchLongCC] at h; exact h
  · right; simp only [matchLongCC] at h; exact h
  · simp only [matchLongCC] at h
    by_cases hu : (a.isUpper && b.isUpper) = true
    · rw [if_pos hu] at h
      cases hp : parseTail rest with
      | none => rw [hp] at h; right; exact h
      | some p =>
        obtain ⟨ds, tor⟩ := p
        rw [hp] at h
        simp only [Option.some.injEq] at h
        subst h
        exact Or.inl ⟨a, b, rest, rfl, (Bool.and_eq_true _ _ ▸ hu).1,
          (Bool.and_eq_true _ _ ▸ hu).2, rfl, rfl, hp⟩
    · rw [if_neg hu] at h; right; exact h

lemma matchLong_inv {cs : List Char} {g : LongMatch}
    (h : matchLong cs = some g) :
    ∃ c1 c2 rest, cs = c1 :: c2 :: rest ∧ isWordChar c1 = true ∧
      isWordChar c2 = true ∧ matchLongCC [c1, c2] (consumeSep rest) = some g := by
  rcases cs with _ | ⟨c1, _ | ⟨c2, rest⟩⟩
  · simp [matchLong] at h
  · simp [matchLong] at h
  · simp only [matchLong] at h
    by_cases hw : (isWordChar c1 && isWordChar c2) = true
    · rw [if_pos hw] at h
      exact ⟨c1, c2, rest, rfl, (Bool.and_eq_true _ _ ▸ hw).1,
        (Bool.and_eq_true _ _ ▸ hw).2, h⟩
    · rw [if_neg hw] at h; cases h

/-- Claim C9, counterexample: normalization is not idempotent on every
grammar-accepted servername.  `PT0` is accepted (`\d{1,3}` matches `0`),
but `lstrip("0")` empties its number, producing `PT#`, which no regex
accepts, so the second normalization fails instead of reproducing `PT#`. -/
theorem normalize_not_idempotent_counterexample :
    is_servername_valid "PT0" = true
    ∧ normalize_servername "PT0" = some "PT#"
    ∧ (normalizeChars ("PT0".data)).bind normalizeChars = none
    ∧ (normalizeChars ("PT0".data)).bind normalizeChars ≠ normalizeChars ("PT0".data) := by
  decide

/-- Claim C9 (amended): normalization is idempotent on every accepted
servername whose captured number group contains a nonzero digit: for such
inputs `normalize (normalize x) = normalize x` (the all-zero-number inputs
such as `PT0` are the only exceptions, their canonical form losing the
number entirely). -/
theorem normalize_idempotent_on_nonzero_number :
    ∀ (cs n : List Char), matchedNumber cs = some n →
      (∃ c ∈ n, (c == '0') = false) →
      (normalizeChars cs).bind normalizeChars = normalizeChars cs := by
  intro cs n hm hnz
  simp only [matchedNumber] at hm
  cases hS : matchShort (pyDollarAdjust cs) with
  | some g =>
    rw [hS] at hm
    simp only [Option.some.injEq] at hm
    subst hm
    obtain ⟨c1, c2, rest, hcs, hw1, hw2, hcty, hpt⟩ := matchShort_inv hS
    obtain ⟨hdig, hlen1, hlen3⟩ := parseTail_inv hpt
    have hne' : lstripZeros g.number ≠ [] := lstripZeros_ne_nil hnz
    have hdig' : ∀ c ∈ lstripZeros g.number, c.isDigit = true :=
      fun c hc => hdig c (lstripZeros_subset hc)
    have hlen' : (lstripZeros g.number).length ≤ 3 :=
      le_trans (lstripZeros_length_le _) hlen3
    have hout : normalizeChars cs =
        some (g.country ++ '#' :: (lstripZeros g.number ++ torSuffix g.tor)) := by
      simp only [normalizeChars, hS]
    have hshape : g.country ++ '#' :: (lstripZeros g.number ++ torSuffix g.tor)
        = (g.country ++ ['#']) ++ (lstripZeros g.number ++ torSuffix g.tor) := by
      simp
    have hadj : pyDollarAdjust
        (g.country ++ '#' :: (lstripZeros g.number ++ torSuffix g.tor))
        = g.country ++ '#' :: (lstripZeros g.number ++ torSuffix g.tor) := by
      apply pyDollarAdjust_eq_self
      intro c hc
      rw [hshape] at hc
      exact out_last hne' hdig' c hc
    have hms : matchShort
        (g.country ++ '#' :: (lstripZeros g.number ++ torSuffix g.tor))
        = some ⟨g.country, lstripZeros g.number, g.tor⟩ := by
      rw [hcty]
      exact matchShort_canonical c1 c2 _ g.tor hw1 hw2 hne' hdig' hlen'
    rw [hout]
    show normalizeChars (g.country ++ '#' :: (lstripZeros g.number ++ torSuffix g.tor))
      = some (g.country ++ '#' :: (lstripZeros g.number ++ torSuffix g.tor))
    simp only [normalizeChars, hadj, hms, lstripZeros_idem]
  | none =>
    rw [hS] at hm
    cases hL : matchLong (pyDollarAdjust cs) with
    | none => rw [hL] at hm; cases hm
    | some g =>
      rw [hL] at hm
      simp only [Option.map_some', Option.some.injEq] at hm
      subst hm
      obtain ⟨c1, c2, rest, hcs, hw1, hw2, hcc⟩ := matchLong_inv hL
      have hout : normalizeChars cs = some (g.country ++ '-' ::
          (g.country2 ++ '#' :: (lstripZeros g.number ++ torSuffix g.tor))) := by
        simp only [normalizeChars, hS, hL]
      rcases matchLongCC_inv hcc with
        ⟨a, b, rest3, hsep, hua, hub, hgc, hgc2, hpt⟩ | hfree
      · obtain ⟨hdig, hlen1, hlen3⟩ := parseTail_inv hpt
        have hne' : lstripZeros g.number ≠ [] := lstripZeros_ne_nil hnz
        have hdig' : ∀ c ∈ lstripZeros g.number, c.isDigit = true :=
          fun c hc => hdig c (lstripZeros_subset hc)
        have hlen' : (lstripZeros g.number).length ≤ 3 :=
          le_trans (lstripZeros_length_le _) hlen3
        have hshape : g.country ++ '-' ::
            (g.country2 ++ '#' :: (lstripZeros g.number ++ torSuffix g.tor))
            = ((g.country ++ ['-']) ++ (g.country2 ++ ['#']))
              ++ (lstripZeros g.number ++ torSuffix g.tor) := by
          simp
        have hadj : pyDollarAdjust (g.country ++ '-' ::
            (g.country2 ++ '#' :: (lstripZeros g.number ++ torSuffix g.tor)))
            = g.country ++ '-' ::
              (g.country2 ++ '#' :: (lstripZeros g.number ++ torSuffix g.tor)) := by
          apply pyDollarAdjust_eq_self
          intro c hc
          rw [hshape] at hc
          exact out_last hne' hdig' c hc
        have hms : matchShort (g.country ++ '-' ::
            (g.country2 ++ '#' :: (lstripZeros g.number ++ torSuffix g.tor))) = none := by
          rw [hgc, hgc2]
          exact matchShort_sep_nondigit_none c1 c2 a _ (upper_not_digit hua)
        have hml : matchLong (g.country ++ '-' ::
            (g.country2 ++ '#' :: (lstripZeros g.number ++ torSuffix g.tor)))
            = some ⟨g.country, g.country2, lstripZeros g.number, g.tor⟩ := by
          rw [hgc, hgc2]
          exact matchLong_canonical_cc c1 c2 a b _ g.tor hw1 hw2 hua hub hne' hdig' hlen'
        rw [hout]
        show normalizeChars (g.country ++ '-' ::
            (g.country2 ++ '#' :: (lstripZeros g.number ++ torSuffix g.tor)))
          = some (g.country ++ '-' ::
            (g.country2 ++ '#' :: (lstripZeros g.number ++ torSuffix g.tor)))
        simp only [normalizeChars, hadj, hms, hml, lstripZeros_idem]
      · obtain ⟨hgc, hgc2, rest4, hsep4, hpt⟩ := matchLongFree_inv hfree
        obtain ⟨hdig, hlen1, hlen3⟩ := parseTail_inv hpt
        have hne' : lstripZeros g.number ≠ [] := lstripZeros_ne_nil hnz
        have hdig' : ∀ c ∈ lstripZeros g.number, c.isDigit = true :=
          fun c hc => hdig c (lstripZeros_subset hc)
        have hlen' : (lstripZeros g.number).length ≤ 3 :=
          le_trans (lstripZeros_length_le _) hlen3
        have hshape : g.country ++ '-' ::
            (g.country2 ++ '#' :: (lstripZeros g.number ++ torSuffix g.tor))
            = ((g.country ++ ['-']) ++ (g.country2 ++ ['#']))
              ++ (lstripZeros g.number ++ torSuffix g.tor) := by
          simp
        have hadj : pyDollarAdjust (g.country ++ '-' ::
            (g.country2 ++ '#' :: (lstripZeros g.number ++ torSuffix g.tor)))
            = g.country ++ '-' ::
              (g.country2 ++ '#' :: (lstripZeros g.number ++ torSuffix g.tor)) := by
          apply pyDollarAdjust_eq_self
          intro c hc
          rw [hshape] at hc
          exact out_last hne' hdig' c hc
        have hms : matchShort (g.country ++ '-' ::
            (g.country2 ++ '#' :: (lstripZeros g.number ++ torSuffix g.tor))) = none := by
          rw [hgc, hgc2]
          exact matchShort_sep_nondigit_none c1 c2 'F' _ (by decide)
        have hml : matchLong (g.country ++ '-' ::
            (g.country2 ++ '#' :: (lstripZeros g.number ++ torSuffix g.tor)))
            = some ⟨g.country, g.country2, lstripZeros g.number, g.tor⟩ := by
          rw [hgc, hgc2]
          exact matchLong_canonical_free c1 c2 _ g.tor hw1 hw2 hne' hdig' hlen'
        rw [hout]
        show normalizeChars (g.country ++ '-' ::
            (g.country2 ++ '#' :: (lstripZeros g.number ++ torSuffix g.tor)))
          = some (g.country ++ '-' ::
            (g.country2 ++ '#' :: (lstripZeros g.number ++ torSuffix g.tor)))
        simp only [normalizeChars, hadj, hms, hml, lstripZeros_idem]

/-- Claim C9, witness for the amended theorem: idempotence at the concrete
accepted servername `PT1`, whose number group is the nonzero `1`. -/
theorem normalize_idempotent_on_nonzero_number_witness :
    (normalizeChars ("PT1".data)).bind normalizeChars = normalizeChars ("PT1".data) :=
  normalize_idempotent_on_nonzero_number ("PT1".data) ['1'] (by decide) (by decide)

/-- Claim C10, witness: a catalog whose only tier-eligible entry is
SecureCore-only makes `fastest` fail with the bare `IndexError`, and an
empty catalog does the same for `random_c`. -/
theorem empty_pool_raises_bare_index_error_witness :
    fastest [⟨"SC1", 0, 1, 1, 1, [⟨"8.8.8.8"⟩]⟩] 0 7 = .error .indexError
    ∧ random_c [] 0 7 = .error .indexError :=
  ⟨empty_pool_raises_bare_index_error.1 [⟨"SC1", 0, 1, 1, 1, [⟨"8.8.8.8"⟩]⟩] 0 7
      (by decide),
    empty_pool_raises_bare_index_error.2 [] 0 7 (by decide)⟩

end ProtonVPN
